import Mathlib

/-!
Verification of the `tyg_social_proofing` Firebase Cloud Functions
(`functions/index.js`, plus an earlier revision of the same file).

The endpoints are shallowly embedded:
* Firestore documents become `Doc` (an id and a field map `Obj`);
* JS values relevant to the code become `JsValue` (numbers are modelled
  as `Int`; no claim depends on fractional values or NaN);
* each call to `Math.random()` is parameterised by a choice function
  `r : Nat → Nat`: the JS expression `Math.floor(Math.random() * n)` is an
  arbitrary value in `[0, n)`, modelled as `r i % n` where `i` indexes the
  call site (every concrete run corresponds to some `r`, and every `r` to a
  possible run);
* HTTP handlers become pure functions returning `Except Nat _`, where
  `.error 405` is the method-not-allowed response; the 500 paths (database
  failures) have no counterpart for an in-memory collection.
-/

/-- A JavaScript value, restricted to the shapes the embedded code meets.
`timestamp` stands for a Firestore `Timestamp` (the only value in this code
with a `toDate` method), carrying its instant as an integer. -/
inductive JsValue where
  | undefined : JsValue
  | null : JsValue
  | bool : Bool → JsValue
  | num : Int → JsValue
  | str : String → JsValue
  | timestamp : Int → JsValue
deriving DecidableEq, Repr

/-- A JS object: field bindings in insertion order, later bindings
overriding earlier ones (so object-literal spread `{...a, k: v}` is plain
list concatenation). -/
abbrev Obj : Type := List (String × JsValue)

/-- Property read `o.k`: the last binding for `k` wins; a missing field
reads as `undefined`, as in JS. -/
def getField (o : Obj) (k : String) : JsValue :=
  List.foldl (fun acc p => if p.1 = k then p.2 else acc) JsValue.undefined o

/-- Property write `o.k = v` (equivalently the override in `{...o, k: v}`),
appended so that the `getField` lookup sees it last. -/
def setField (o : Obj) (k : String) (v : JsValue) : Obj :=
  o ++ [(k, v)]

/-- JS truthiness of the modelled values. -/
def jsTruthy : JsValue → Bool
  | JsValue.undefined => false
  | JsValue.null => false
  | JsValue.bool b => b
  | JsValue.num n => n != 0
  | JsValue.str s => s != ""
  | JsValue.timestamp _ => true

/-- JS short-circuit `a || b`. -/
def jsOr (a b : JsValue) : JsValue :=
  if jsTruthy a then a else b

/-- JS `String(v)` for the modelled values (only ever applied to truthy
values in the code; the text chosen for a `timestamp` is immaterial to
every claim). -/
def jsToString : JsValue → String
  | JsValue.undefined => "undefined"
  | JsValue.null => "null"
  | JsValue.bool true => "true"
  | JsValue.bool false => "false"
  | JsValue.num n => toString n
  | JsValue.str s => s
  | JsValue.timestamp t => "Timestamp(" ++ toString t ++ ")"

/-- JS `Array.prototype.includes` on an array of string literals: a
non-string value never equals a string under SameValueZero. -/
def jsIncludes (l : List String) : JsValue → Bool
  | JsValue.str s => l.contains s
  | _ => false

/-- JS `a || b` on plain strings (used for CSV cell defaults). -/
def jsOrStr (a b : String) : String :=
  if a = "" then b else a

/-- A Firestore document: its id and its data. -/
structure Doc where
  id : String
  data : Obj
deriving DecidableEq, Repr

/-- Reading `getField` after `setField` at the same key gives the written value. -/
theorem getField_setField (o : Obj) (k : String) (v : JsValue) :
    getField (setField o k v) k = v := by
  simp [getField, setField, List.foldl_append]

/-- Reading `getField` after `setField` at another key is unchanged. -/
theorem getField_setField_ne (o : Obj) (k k' : String) (v : JsValue) (h : k' ≠ k) :
    getField (setField o k v) k' = getField o k' := by
  simp [getField, setField, List.foldl_append, h.symm]

/-! ### The in-place Fisher–Yates shuffle

Both endpoints shuffle with
`for (let i = len-1; i > 0; i--) { j = floor(random()*(i+1)); swap(i, j) }`.
The random draws are the choice function `r`; the draw at loop index `i`
is `r i % (i+1) ∈ [0, i]`, exactly the range of `floor(random()*(i+1))`. -/

/-- Swap the entries at positions `i` and `j` (identity out of bounds;
the shuffle only ever swaps in bounds). -/
def listSwap {α : Type} (l : List α) (i j : Nat) : List α :=
  match l[i]?, l[j]? with
  | some x, some y => (l.set i y).set j x
  | _, _ => l

/-- The loop body, descending from the given index to `1`. -/
def fyLoop {α : Type} (r : Nat → Nat) : Nat → List α → List α
  | 0, l => l
  | Nat.succ i, l => fyLoop r i (listSwap l (i + 1) (r (i + 1) % (i + 2)))

/-- The whole shuffle: run the loop from `length - 1` down. -/
def fisherYates {α : Type} (l : List α) (r : Nat → Nat) : List α :=
  fyLoop r (l.length - 1) l

theorem cons_set_perm {α : Type} :
    ∀ (l : List α) (m : Nat) (y a : α), l[m]? = some y →
      List.Perm (y :: l.set m a) (a :: l) := by
  intro l
  induction l with
  | nil => intro m y a h; simp at h
  | cons b t ih =>
    intro m y a h
    cases m with
    | zero =>
      simp at h
      subst h
      simpa using List.Perm.swap a b t
    | succ m =>
      simp at h
      show List.Perm (y :: b :: t.set m a) (a :: b :: t)
      exact (List.Perm.swap b y (t.set m a)).trans
        ((List.Perm.cons b (ih m y a h)).trans (List.Perm.swap a b t))

theorem swap_set_perm {α : Type} :
    ∀ (l : List α) (i j : Nat) (x y : α), l[i]? = some x → l[j]? = some y →
      List.Perm ((l.set i y).set j x) l := by
  intro l
  induction l with
  | nil => intro i j x y h; simp at h
  | cons b t ih =>
    intro i j x y hi hj
    cases i with
    | zero =>
      simp at hi
      subst hi
      cases j with
      | zero =>
        simp at hj
        subst hj
        simp
      | succ m =>
        simp at hj
        simpa using cons_set_perm t m y b hj
    | succ n =>
      simp at hi
      cases j with
      | zero =>
        simp at hj
        subst hj
        simpa using cons_set_perm t n x b hi
      | succ m =>
        simp at hj
        simpa using List.Perm.cons b (ih n m x y hi hj)

/-- One swap is a permutation. -/
theorem listSwap_perm {α : Type} (l : List α) (i j : Nat) :
    List.Perm (listSwap l i j) l := by
  unfold listSwap
  cases hx : l[i]? with
  | none => exact List.Perm.refl l
  | some x =>
    cases hy : l[j]? with
    | none => exact List.Perm.refl l
    | some y => exact swap_set_perm l i j x y hx hy

/-- The shuffle loop is a permutation. -/
theorem fyLoop_perm {α : Type} (r : Nat → Nat) :
    ∀ (n : Nat) (l : List α), List.Perm (fyLoop r n l) l := by
  intro n
  induction n with
  | zero => intro l; exact List.Perm.refl l
  | succ i ih =>
    intro l
    exact (ih _).trans (listSwap_perm l (i + 1) (r (i + 1) % (i + 2)))

/-- The Fisher–Yates shuffle returns a permutation of its input. -/
theorem fisherYates_perm {α : Type} (l : List α) (r : Nat → Nat) :
    List.Perm (fisherYates l r) l :=
  fyLoop_perm r (l.length - 1) l

/-- Shuffling preserves length. -/
theorem fisherYates_length {α : Type} (l : List α) (r : Nat → Nat) :
    (fisherYates l r).length = l.length :=
  (fisherYates_perm l r).length_eq

/-! ### `getSocialProofMessages` (get-all endpoint), `functions/index.js` -/

/-- Successful body of the get-all endpoint, together with the
`Cache-Control` header the handler set (if any). -/
structure GetAllOk where
  cacheControl : Option String
  messages : List Obj
deriving DecidableEq, Repr

/-- The per-document normalization in the get-all handler:
`if (data.tone === 'Ray of Sunshine') data.tone = 'Sunshine'`. -/
def normalizeTone (data : Obj) : Obj :=
  if getField data "tone" = JsValue.str "Ray of Sunshine" then
    setField data "tone" (JsValue.str "Sunshine")
  else data

/-- The get-all handler: GET only; empty collection returns `{messages: []}`
without setting any header; otherwise tones are normalized, the list is
shuffled, and the cache header is set. -/
def getSocialProofMessages (method : String) (db : List Doc) (r : Nat → Nat) :
    Except Nat GetAllOk :=
  if method ≠ "GET" then Except.error 405
  else if db.isEmpty then Except.ok { cacheControl := none, messages := [] }
  else
    let messages := db.map (fun d => normalizeTone d.data)
    let shuffled := fisherYates messages r
    Except.ok { cacheControl := some "public, max-age=300, s-maxage=600",
                messages := shuffled }

/-! ### `getMessages` (paginated endpoint), `functions/index.js`

The Firestore query `orderBy('createdAt', 'desc').limit(limit)` with an
optional `startAfter` cursor is the external collaborator here; it is
modelled per Firestore's documented semantics: only documents whose
`createdAt` field exists (a `timestamp` in this model) appear in the
result, ordered by `createdAt` descending with the document id (descending,
matching the direction of the last `orderBy`) as tiebreaker, and
`startAfter(snap)` resumes strictly after `snap`'s position in that order.
No claim depends on the tiebreaker or on mixed-type `createdAt` values. -/

/-- Raw request body fields of the paginated endpoint (absent = `undefined`). -/
structure PageRequest where
  lastDocId : JsValue
  limit : JsValue
deriving DecidableEq, Repr

/-- Successful body of the paginated endpoint. -/
structure PageOk where
  messages : List Obj
  lastDocId : Option String
  hasMore : Bool
deriving DecidableEq, Repr

/-- The limit validation:
`typeof limit !== 'number' → 20; limit <= 0 → 20; limit > 50 → 50`. -/
def effLimit (v : JsValue) : Int :=
  let l1 : Int := match v with
    | JsValue.num n => n
    | _ => 20
  let l2 : Int := if l1 ≤ 0 then 20 else l1
  if l2 > 50 then 50 else l2

/-- Order `createdAt desc` with the document id (descending) as tiebreaker:
`a` sorts before `b`. -/
def orderKeyBefore (a b : Doc × Int) : Bool :=
  b.2 < a.2 || (a.2 == b.2 && decide (b.1.id < a.1.id))

/-- Insert into an already ordered list. -/
def insertSorted (a : Doc × Int) : List (Doc × Int) → List (Doc × Int)
  | [] => [a]
  | b :: rest =>
    if orderKeyBefore a b then a :: b :: rest else b :: insertSorted a rest

/-- Sort by `orderKeyBefore` (insertion sort; the claims do not depend on
the sorting algorithm, only on the query returning some fixed order). -/
def sortKeyed : List (Doc × Int) → List (Doc × Int)
  | [] => []
  | a :: rest => insertSorted a (sortKeyed rest)

/-- The documents of the `messages` collection in the query order of
`orderBy('createdAt', 'desc')`: documents lacking a timestamp `createdAt`
are not part of the ordered index. -/
def orderedDocs (db : List Doc) : List Doc :=
  let keyed := db.filterMap (fun d =>
    match getField d.data "createdAt" with
    | JsValue.timestamp t => some (d, t)
    | _ => none)
  (sortKeyed keyed).map Prod.fst

/-- The page of documents the Firestore query returns for one request:
cursor resolution (`if (lastDocId) { ... }`) followed by the ordered,
limited query. A truthy `lastDocId` naming an existing document makes the
query continue strictly after that document; otherwise the cursor is
discarded and the first page is returned. -/
def pageDocs (db : List Doc) (req : PageRequest) : List Doc :=
  let limit := (effLimit req.limit).toNat
  let ord := orderedDocs db
  if jsTruthy req.lastDocId then
    let cid := jsToString req.lastDocId
    if db.any (fun d => d.id = cid) then
      match ord.findIdx? (fun d => d.id = cid) with
      | some i => (ord.drop (i + 1)).take limit
      | none => ord.take limit
    else ord.take limit
  else ord.take limit

/-- The `Date.prototype.toISOString` rendering of a timestamp,
abstracted as an injective rendering of the instant: no claim depends on
the exact text, only on the value being a string distinct from the raw
timestamp. -/
def isoString (t : Int) : String :=
  toString t ++ "Z"

/-- Row reshaping of the current revision (`functions/index.js`): spread
the document data first, then override with `id` and the normalized
`title`/`content`/`createdAt`. -/
def reshapeRow (d : Doc) : Obj :=
  let data := d.data
  let createdAt0 := jsOr (getField data "createdAt") JsValue.null
  let createdAt := match createdAt0 with
    | JsValue.timestamp t => JsValue.str (isoString t)
    | v => v
  data ++
    [("id", JsValue.str d.id),
     ("title", jsOr (getField data "title") (JsValue.str "")),
     ("content", jsOr (jsOr (getField data "content") (getField data "text"))
        (JsValue.str "")),
     ("createdAt", createdAt)]

/-- Row reshaping of the earlier revision (`src/unnamed/part_001`): the
normalized fields come first and the raw document data is spread last,
overriding them. -/
def reshapeRowLegacy (d : Doc) : Obj :=
  let data := d.data
  let createdAt0 := jsOr (getField data "createdAt") JsValue.null
  let createdAt := match createdAt0 with
    | JsValue.timestamp t => JsValue.str (isoString t)
    | v => v
  [("id", JsValue.str d.id),
   ("title", jsOr (getField data "title") (JsValue.str "")),
   ("content", jsOr (jsOr (getField data "content") (getField data "text"))
      (JsValue.str "")),
   ("createdAt", createdAt)] ++ data

/-- The paginated handler (current revision): POST only; fetch the page,
reshape each row, shuffle within the page, and report the id of the last
document of the unshuffled snapshot as the next cursor, with
`hasMore := snapshot.size === limit`. -/
def getMessages (method : String) (db : List Doc) (req : PageRequest)
    (r : Nat → Nat) : Except Nat PageOk :=
  if method ≠ "POST" then Except.error 405
  else
    let limit := (effLimit req.limit).toNat
    let page := pageDocs db req
    let messages := fisherYates (page.map reshapeRow) r
    let nextLastDocId := (page.getLast?).map Doc.id
    let hasMore := page.length = limit
    Except.ok { messages := messages, lastDocId := nextLastDocId,
                hasMore := hasMore }

/-! ### Seed loaders, `functions/index.js`

`Papa.parse(file, {header: true, skipEmptyLines: true})` (an external
library) yields one object per CSV row with the header names as string
fields; a well-formed row is modelled as `CsvRow`. The JS template
literal over plain strings is string concatenation. -/

/-- One parsed CSV row (fields as the JS code reads them:
`row.Tone`, `row.Message`, `row.City`, `row.State`, `row.Country`,
`row.Date`). -/
structure CsvRow where
  tone : String
  message : String
  city : String
  state : String
  country : String
  date : String
deriving DecidableEq, Repr

/-- Loader `loadSeedMessages`: rows of `thank_you_grams.csv`;
`location` is unconditionally `` `${row.City}, ${row.State}` ``. -/
def loadSeedMessages (rows : List CsvRow) : List Obj :=
  rows.map (fun row =>
    [("tone", JsValue.str row.tone),
     ("message", JsValue.str row.message),
     ("city", JsValue.str row.city),
     ("state", JsValue.str row.state),
     ("date", JsValue.str row.date),
     ("location", JsValue.str (row.city ++ ", " ++ row.state))])

/-- Loader `loadGlobalSeedMessages`: rows of `global_thank_you_grams.csv`;
`location` is unconditionally `` `${row.City}, ${row.Country}` ``. -/
def loadGlobalSeedMessages (rows : List CsvRow) : List Obj :=
  rows.map (fun row =>
    [("tone", JsValue.str row.tone),
     ("message", JsValue.str row.message),
     ("city", JsValue.str row.city),
     ("country", JsValue.str row.country),
     ("date", JsValue.str row.date),
     ("location", JsValue.str (row.city ++ ", " ++ row.country))])

/-- Loader `loadBecauseOfYouSeedMessages`: rows of
`because_of_you_300_samples.csv`; the only loader with the
state/country/city/"Unknown" fallback (state and country trimmed first). -/
def loadBecauseOfYouSeedMessages (rows : List CsvRow) : List Obj :=
  rows.map (fun row =>
    let city := jsOrStr row.city ""
    let state := (jsOrStr row.state "").trim
    let country := (jsOrStr row.country "").trim
    let location :=
      if state ≠ "" then city ++ ", " ++ state
      else if country ≠ "" then city ++ ", " ++ country
      else jsOrStr city "Unknown"
    [("tone", JsValue.str row.tone),
     ("message", JsValue.str row.message),
     ("city", JsValue.str city),
     ("state", JsValue.str state),
     ("country", JsValue.str country),
     ("date", JsValue.str row.date),
     ("location", JsValue.str location)])

/-- The location fallback exactly as the claim words it (for comparison
with what each loader actually computes): city plus state if state is
non-empty, else city plus country if country is non-empty, else city
alone, else the literal string `"Unknown"`. -/
def claimedLocationFallback (city state country : String) : String :=
  if state ≠ "" then city ++ ", " ++ state
  else if country ≠ "" then city ++ ", " ++ country
  else if city ≠ "" then city
  else "Unknown"

/-! ### `backfillToneField`, `functions/index.js` -/

/-- The constant `VALID_TONES = ['Big Hug', 'High Five', 'Coffee Break', 'Sunshine']`. -/
def VALID_TONES : List String :=
  ["Big Hug", "High Five", "Coffee Break", "Sunshine"]

/-- The check `data.tone && VALID_TONES.includes(data.tone)` as a Bool. -/
def hasTone (data : Obj) : Bool :=
  jsTruthy (getField data "tone") && jsIncludes VALID_TONES (getField data "tone")

/-- The draw `VALID_TONES[Math.floor(Math.random() * VALID_TONES.length)]` with the
random draw `k`: an arbitrary index in `[0, 4)` is `k % 4`. -/
def randomTone (k : Nat) : String :=
  VALID_TONES.getD (k % VALID_TONES.length) ""

/-- The field-level updates the scan queues, in order: for the document at
position `i` (draws indexed by document position), if its tone is missing
or invalid, queue `update(doc.ref, {tone: randomTone})`. The update value
is the one-field patch object. -/
def backfillUpdates (r : Nat → Nat) : Nat → List Doc → List (String × Obj)
  | _, [] => []
  | i, d :: rest =>
    if hasTone d.data then backfillUpdates r (i + 1) rest
    else (d.id, [("tone", JsValue.str (randomTone (r i)))]) ::
      backfillUpdates r (i + 1) rest

/-- The collection after all batches commit: each document with a missing
or invalid tone has exactly its `tone` field overwritten with the drawn
tone; every other document is untouched. -/
def backfillDocs (r : Nat → Nat) : Nat → List Doc → List Doc
  | _, [] => []
  | i, d :: rest =>
    (if hasTone d.data then d
     else { d with data := setField d.data "tone" (JsValue.str (randomTone (r i))) }) ::
      backfillDocs r (i + 1) rest

/-- Outcome of one successful POST to the backfill endpoint: the new
collection state, the queued updates, and the reported response counters.
The 500-per-batch grouping only bounds atomicity of partial failures; on
the success path every queued update is applied, which is what is modelled. -/
structure BackfillResult where
  newDb : List Doc
  updates : List (String × Obj)
  backfilled : Nat
  totalDocuments : Nat
deriving Repr

/-- The backfill endpoint on the success path. -/
def backfillToneField (db : List Doc) (r : Nat → Nat) : BackfillResult :=
  { newDb := backfillDocs r 0 db
    updates := backfillUpdates r 0 db
    backfilled := (backfillUpdates r 0 db).length
    totalDocuments := db.length }

/-- Number of documents a scan would find with missing/invalid tone. -/
def invalidToneCount (db : List Doc) : Nat :=
  (db.filter (fun d => !hasTone d.data)).length

/-! ### Helper lemmas -/

/-- The drawn tone is always one of the four canonical values. -/
theorem randomTone_mem (k : Nat) : randomTone k ∈ VALID_TONES := by
  have h : k % VALID_TONES.length < VALID_TONES.length :=
    Nat.mod_lt _ (by decide)
  unfold randomTone
  rw [List.getD_eq_getElem _ _ h]
  exact List.getElem_mem h

/-- None of the canonical tones is the legacy value. -/
theorem mem_VALID_TONES_ne_legacy {t : String} (h : t ∈ VALID_TONES) :
    t ≠ "Ray of Sunshine" := by
  simp only [VALID_TONES, List.mem_cons, List.not_mem_nil, or_false] at h
  rcases h with rfl | rfl | rfl | rfl <;> decide

/-- None of the canonical tones is empty (so a written tone is truthy). -/
theorem mem_VALID_TONES_ne_empty {t : String} (h : t ∈ VALID_TONES) :
    t ≠ "" := by
  simp only [VALID_TONES, List.mem_cons, List.not_mem_nil, or_false] at h
  rcases h with rfl | rfl | rfl | rfl <;> decide

/-- After writing a drawn tone, the document passes the validity check. -/
theorem hasTone_setField_randomTone (data : Obj) (k : Nat) :
    hasTone (setField data "tone" (JsValue.str (randomTone k))) = true := by
  have hm := randomTone_mem k
  unfold hasTone
  rw [getField_setField]
  simp only [jsTruthy, jsIncludes, Bool.and_eq_true, bne_iff_ne, ne_eq,
    List.elem_iff]
  exact ⟨mem_VALID_TONES_ne_empty hm, hm⟩

/-- Every document left by a backfill pass has a valid tone. -/
theorem hasTone_backfillDocs (r : Nat → Nat) :
    ∀ (db : List Doc) (i : Nat) (d : Doc), d ∈ backfillDocs r i db →
      hasTone d.data = true := by
  intro db
  induction db with
  | nil => intro i d h; simp [backfillDocs] at h
  | cons b rest ih =>
    intro i d h
    simp only [backfillDocs, List.mem_cons] at h
    rcases h with h | h
    · by_cases hb : hasTone b.data
      · rw [if_pos hb] at h; subst h; exact hb
      · rw [if_neg hb] at h; subst h; exact hasTone_setField_randomTone b.data (r i)
    · exact ih (i + 1) d h

/-- A scan over documents that all have a valid tone queues no update. -/
theorem backfillUpdates_eq_nil (r : Nat → Nat) :
    ∀ (db : List Doc), (∀ d ∈ db, hasTone d.data = true) →
      ∀ i, backfillUpdates r i db = [] := by
  intro db
  induction db with
  | nil => intro _ i; simp [backfillUpdates]
  | cons b rest ih =>
    intro h i
    have hb : hasTone b.data = true := h b (List.mem_cons_self b rest)
    simp only [backfillUpdates, hb, if_true]
    exact ih (fun d hd => h d (List.mem_cons_of_mem b hd)) (i + 1)

/-! ### Claim C1 -/

/-- The collection of the spec's scenario: three documents with tones
`"Big Hug"`, `null`, `"Ray of Sunshine"`. -/
def scenarioDb : List Doc :=
  [⟨"d1", [("tone", JsValue.str "Big Hug")]⟩,
   ⟨"d2", [("tone", JsValue.null)]⟩,
   ⟨"d3", [("tone", JsValue.str "Ray of Sunshine")]⟩]

/-- C1 (counterexample): on the scenario collection, one backfill run
reports `backfilled = 2`, not `1`: the legacy tone `"Ray of Sunshine"` is
not in `VALID_TONES`, so that document is also backfilled, and its stored
tone ends up a canonical value (here `"Big Hug"` for the all-zero draws)
rather than being left unchanged. -/
theorem C1_backfill_scenario_counterexample :
    (backfillToneField scenarioDb (fun _ => 0)).backfilled = 2 ∧
    (backfillToneField scenarioDb (fun _ => 0)).totalDocuments = 3 ∧
    getField (((backfillToneField scenarioDb (fun _ => 0)).newDb).getD 2
      ⟨"", []⟩).data "tone" = JsValue.str "Big Hug" :=
  ⟨rfl, rfl, rfl⟩

/-- C1 (amended): on a collection with tones
`["Big Hug", null, "Ray of Sunshine"]`, one backfill invocation reports
`backfilled = 2` (the `null`-tone document and the legacy
`"Ray of Sunshine"` document are both changed) and `totalDocuments = 3`;
both changed documents receive a random canonical tone, and the
`"Big Hug"` document is left untouched. -/
theorem C1_backfill_scenario (r : Nat → Nat) :
    ∃ t₂ t₃, t₂ ∈ VALID_TONES ∧ t₃ ∈ VALID_TONES ∧
      (backfillToneField scenarioDb r).backfilled = 2 ∧
      (backfillToneField scenarioDb r).totalDocuments = 3 ∧
      (backfillToneField scenarioDb r).newDb =
        [⟨"d1", [("tone", JsValue.str "Big Hug")]⟩,
         ⟨"d2", [("tone", JsValue.null), ("tone", JsValue.str t₂)]⟩,
         ⟨"d3", [("tone", JsValue.str "Ray of Sunshine"),
                 ("tone", JsValue.str t₃)]⟩] := by
  refine ⟨randomTone (r 1), randomTone (r 2), randomTone_mem _,
    randomTone_mem _, ?_, ?_, ?_⟩
  · have h1 : hasTone [("tone", JsValue.str "Big Hug")] = true := rfl
    have h2 : hasTone [("tone", JsValue.null)] = false := rfl
    have h3 : hasTone [("tone", JsValue.str "Ray of Sunshine")] = false := rfl
    simp [backfillToneField, scenarioDb, backfillUpdates, h1, h2, h3]
  · rfl
  · have h1 : hasTone [("tone", JsValue.str "Big Hug")] = true := rfl
    have h2 : hasTone [("tone", JsValue.null)] = false := rfl
    have h3 : hasTone [("tone", JsValue.str "Ray of Sunshine")] = false := rfl
    simp [backfillToneField, scenarioDb, backfillDocs, h1, h2, h3, setField]

/-! ### Claim C3 -/

/-- C3: the backfill endpoint is idempotent on tone validity: after one
run (any collection state, any random draws, no concurrent writers), a
second run finds zero documents with missing/invalid tone and reports
`backfilled = 0`. -/
theorem C3_backfill_idempotent (db : List Doc) (r r₂ : Nat → Nat) :
    invalidToneCount (backfillToneField db r).newDb = 0 ∧
    (backfillToneField (backfillToneField db r).newDb r₂).backfilled = 0 := by
  have hall : ∀ d ∈ (backfillToneField db r).newDb, hasTone d.data = true :=
    fun d hd => hasTone_backfillDocs r db 0 d hd
  constructor
  · unfold invalidToneCount
    rw [List.length_eq_zero, List.filter_eq_nil_iff]
    intro d hd
    simp [hall d hd]
  · show (backfillUpdates r₂ 0 (backfillToneField db r).newDb).length = 0
    rw [backfillUpdates_eq_nil r₂ _ hall 0]
    rfl

/-! ### Claim C6 -/

theorem backfillUpdates_patch (r : Nat → Nat) :
    ∀ (db : List Doc) (i : Nat) (u : String × Obj),
      u ∈ backfillUpdates r i db →
      ∃ t, u.2 = [("tone", JsValue.str t)] ∧ t ∈ VALID_TONES := by
  intro db
  induction db with
  | nil => intro i u h; simp [backfillUpdates] at h
  | cons b rest ih =>
    intro i u h
    by_cases hb : hasTone b.data
    · rw [backfillUpdates, if_pos hb] at h
      exact ih (i + 1) u h
    · rw [backfillUpdates, if_neg hb] at h
      rcases List.mem_cons.mp h with h | h
      · subst h
        exact ⟨randomTone (r i), rfl, randomTone_mem _⟩
      · exact ih (i + 1) u h

/-- C6: every update queued by the backfill endpoint writes exactly the
`tone` field (a one-binding patch object) and nothing else, and the value
written is one of the four canonical tones — never the legacy
`"Ray of Sunshine"`. -/
theorem C6_backfill_update_frame (db : List Doc) (r : Nat → Nat)
    (u : String × Obj) (hu : u ∈ (backfillToneField db r).updates) :
    ∃ t, u.2 = [("tone", JsValue.str t)] ∧ t ∈ VALID_TONES ∧
      t ≠ "Ray of Sunshine" := by
  obtain ⟨t, hpatch, hmem⟩ := backfillUpdates_patch r db 0 u hu
  exact ⟨t, hpatch, hmem, mem_VALID_TONES_ne_legacy hmem⟩

/-- C6 witness: on the scenario collection with all-zero draws, the first
queued update is the one-field patch `{tone: "Big Hug"}` on `d2`. -/
theorem C6_backfill_update_frame_witness :
    ∃ t, ("d2", [("tone", JsValue.str "Big Hug")]).2 =
        [("tone", JsValue.str t)] ∧ t ∈ VALID_TONES ∧
      t ≠ "Ray of Sunshine" :=
  C6_backfill_update_frame scenarioDb (fun _ => 0)
    ("d2", [("tone", JsValue.str "Big Hug")]) (by decide)

/-! ### Claim C5 -/

/-- Tone normalization never leaves the legacy value readable. -/
theorem getField_normalizeTone_ne_legacy (o : Obj) :
    getField (normalizeTone o) "tone" ≠ JsValue.str "Ray of Sunshine" := by
  unfold normalizeTone
  by_cases h : getField o "tone" = JsValue.str "Ray of Sunshine"
  · rw [if_pos h, getField_setField]
    decide
  · rw [if_neg h]
    exact h

/-- C5: in every successful get-all response, each document whose stored
tone is the legacy `"Ray of Sunshine"` appears with tone `"Sunshine"` (as
the same document with only the tone rewritten), and the legacy value
never appears in the output. -/
theorem C5_getall_tone_normalized (db : List Doc) (r : Nat → Nat)
    (out : GetAllOk)
    (hout : getSocialProofMessages "GET" db r = Except.ok out) :
    (∀ m ∈ out.messages,
      getField m "tone" ≠ JsValue.str "Ray of Sunshine") ∧
    (∀ d ∈ db, getField d.data "tone" = JsValue.str "Ray of Sunshine" →
      setField d.data "tone" (JsValue.str "Sunshine") ∈ out.messages ∧
      getField (setField d.data "tone" (JsValue.str "Sunshine")) "tone" =
        JsValue.str "Sunshine") := by
  rw [getSocialProofMessages, if_neg (by decide)] at hout
  by_cases hemp : db.isEmpty
  · rw [if_pos hemp] at hout
    have hdb : db = [] := List.isEmpty_iff.mp hemp
    obtain rfl : ({ cacheControl := none, messages := [] } : GetAllOk) = out :=
      Except.ok.inj hout
    subst hdb
    constructor
    · intro m hm; simp at hm
    · intro d hd; simp at hd
  · rw [if_neg hemp] at hout
    obtain rfl := Except.ok.inj hout
    have hperm : List.Perm
        (fisherYates (db.map (fun d => normalizeTone d.data)) r)
        (db.map (fun d => normalizeTone d.data)) :=
      fisherYates_perm _ r
    constructor
    · intro m hm
      have hm' : m ∈ db.map (fun d => normalizeTone d.data) :=
        hperm.mem_iff.mp hm
      obtain ⟨d, _, rfl⟩ := List.mem_map.mp hm'
      exact getField_normalizeTone_ne_legacy d.data
    · intro d hd hleg
      refine ⟨?_, getField_setField _ _ _⟩
      have hmem : normalizeTone d.data ∈ db.map (fun d => normalizeTone d.data) :=
        List.mem_map_of_mem _ hd
      rw [normalizeTone, if_pos hleg] at hmem
      exact hperm.mem_iff.mpr hmem

/-- One-document collection whose tone is the legacy value. -/
def legacyDb : List Doc :=
  [⟨"a", [("tone", JsValue.str "Ray of Sunshine")]⟩]

/-- The get-all output for `legacyDb`. -/
def legacyOut : GetAllOk where
  cacheControl := some "public, max-age=300, s-maxage=600"
  messages := [[("tone", JsValue.str "Ray of Sunshine"),
                ("tone", JsValue.str "Sunshine")]]

/-- C5 witness: on the one-document legacy collection, the normalized
document is in the output with tone `"Sunshine"`. -/
theorem C5_getall_tone_normalized_witness :
    setField [("tone", JsValue.str "Ray of Sunshine")] "tone"
        (JsValue.str "Sunshine") ∈ legacyOut.messages ∧
    getField (setField [("tone", JsValue.str "Ray of Sunshine")] "tone"
        (JsValue.str "Sunshine")) "tone" = JsValue.str "Sunshine" :=
  (C5_getall_tone_normalized legacyDb (fun _ => 0) legacyOut rfl).2
    ⟨"a", [("tone", JsValue.str "Ray of Sunshine")]⟩ (by decide) rfl

/-! ### Claim C9 -/

/-- C9 (counterexample): for an empty collection the get-all endpoint
returns HTTP 200 with `{messages: []}` but never reaches the
`res.set('Cache-Control', ...)` line, so this successful response carries
no cache-control header, contradicting "including the response for an
empty collection". -/
theorem C9_cache_header_counterexample :
    getSocialProofMessages "GET" [] (fun _ => 0) =
      Except.ok { cacheControl := none, messages := [] } ∧
    (none : Option String) ≠ some "public, max-age=300, s-maxage=600" :=
  ⟨rfl, by decide⟩

/-- C9 (amended): every successful get-all response for a non-empty
collection carries `Cache-Control: public, max-age=300, s-maxage=600`
(5-minute client max-age, 10-minute shared-cache max-age); the successful
response for an empty collection carries no cache-control header. -/
theorem C9_cache_header (db : List Doc) (r : Nat → Nat) (out : GetAllOk)
    (hout : getSocialProofMessages "GET" db r = Except.ok out) :
    (db ≠ [] → out.cacheControl = some "public, max-age=300, s-maxage=600") ∧
    (db = [] → out.cacheControl = none) := by
  rw [getSocialProofMessages, if_neg (by decide)] at hout
  by_cases hemp : db.isEmpty
  · rw [if_pos hemp] at hout
    obtain rfl := Except.ok.inj hout
    have hdb : db = [] := List.isEmpty_iff.mp hemp
    exact ⟨fun h => absurd hdb h, fun _ => rfl⟩
  · rw [if_neg hemp] at hout
    obtain rfl := Except.ok.inj hout
    refine ⟨fun _ => rfl, fun h => absurd (List.isEmpty_iff.mpr h) hemp⟩

/-- C9 witness: the non-empty legacy collection's successful response
carries the cache-control header. -/
theorem C9_cache_header_witness :
    legacyOut.cacheControl = some "public, max-age=300, s-maxage=600" :=
  (C9_cache_header legacyDb (fun _ => 0) legacyOut rfl).1 (by decide)

/-! ### Claim C2 -/

theorem effLimit_num (n : Int) :
    effLimit (JsValue.num n) =
      if (if n ≤ 0 then 20 else n) > 50 then 50
      else (if n ≤ 0 then 20 else n) := rfl

/-- Every branch of the page computation ends in `take limit`. -/
theorem pageDocs_length_le (db : List Doc) (req : PageRequest) :
    (pageDocs db req).length ≤ (effLimit req.limit).toNat := by
  unfold pageDocs
  dsimp only
  split
  · split
    · split <;> exact List.length_take_le _ _
    · exact List.length_take_le _ _
  · exact List.length_take_le _ _

/-- C2: the paginated endpoint returns between 0 and
`min(requestedLimit, 50)` documents for a positive numeric limit; an
omitted/non-numeric or non-positive limit yields the default effective
limit 20; `limit: 100` yields at most 50 documents. -/
theorem C2_paginated_limit_clamp (db : List Doc) (req : PageRequest)
    (r : Nat → Nat) (out : PageOk)
    (hout : getMessages "POST" db req r = Except.ok out) :
    out.messages.length ≤ (effLimit req.limit).toNat ∧
    (∀ n : Int, req.limit = JsValue.num n → 0 < n →
      (out.messages.length : Int) ≤ min n 50) ∧
    ((∀ n : Int, req.limit ≠ JsValue.num n) → effLimit req.limit = 20) ∧
    (∀ n : Int, req.limit = JsValue.num n → n ≤ 0 → effLimit req.limit = 20) ∧
    (req.limit = JsValue.num 100 → out.messages.length ≤ 50) := by
  rw [getMessages, if_neg (by decide)] at hout
  obtain rfl := Except.ok.inj hout
  dsimp only
  have hlen : (fisherYates ((pageDocs db req).map reshapeRow) r).length ≤
      (effLimit req.limit).toNat := by
    rw [fisherYates_length, List.length_map]
    exact pageDocs_length_le db req
  refine ⟨hlen, ?_, ?_, ?_, ?_⟩
  · intro n hn hpos
    have heff : effLimit req.limit = min n 50 := by
      rw [hn, effLimit_num]
      split_ifs <;> omega
    rw [heff] at hlen
    omega
  · intro h
    unfold effLimit
    cases hv : req.limit with
    | num n => exact absurd hv (h n)
    | undefined => rfl
    | null => rfl
    | bool b => rfl
    | str s => rfl
    | timestamp t => rfl
  · intro n hn hnp
    rw [hn, effLimit_num]
    split_ifs <;> omega
  · intro hn
    rw [hn] at hlen
    have h50 : (effLimit (JsValue.num 100)).toNat = 50 := by decide
    rw [h50] at hlen
    exact hlen

/-- Two-document collection used to exercise the paginated endpoint. -/
def pageDb : List Doc :=
  [⟨"w1", [("createdAt", JsValue.timestamp 1)]⟩,
   ⟨"w2", [("createdAt", JsValue.timestamp 2)]⟩]

/-- The paginated response for `pageDb` with `limit: 100` and all-zero
draws (the page is `[w2, w1]` in query order; the shuffle swaps it). -/
def pageOut : PageOk where
  messages :=
    [[("createdAt", JsValue.timestamp 1), ("id", JsValue.str "w1"),
      ("title", JsValue.str ""), ("content", JsValue.str ""),
      ("createdAt", JsValue.str "1Z")],
     [("createdAt", JsValue.timestamp 2), ("id", JsValue.str "w2"),
      ("title", JsValue.str ""), ("content", JsValue.str ""),
      ("createdAt", JsValue.str "2Z")]]
  lastDocId := some "w1"
  hasMore := false

/-- C2 witness: the concrete `limit: 100` request on `pageDb` returns at
most `min 100 50` documents. -/
theorem C2_paginated_limit_clamp_witness :
    (pageOut.messages.length : Int) ≤ min 100 50 :=
  (C2_paginated_limit_clamp pageDb ⟨JsValue.undefined, JsValue.num 100⟩
    (fun _ => 0) pageOut rfl).2.1 100 rfl (by decide)

/-! ### Claim C4 -/

/-- C4: a `lastDocId` string matching no existing document is silently
discarded: the response (messages, cursor, `hasMore`) is identical to the
response for the same request without `lastDocId`. -/
theorem C4_invalid_cursor_first_page (db : List Doc) (lim : JsValue)
    (s : String) (r : Nat → Nat) (h : ∀ d ∈ db, d.id ≠ s) :
    getMessages "POST" db ⟨JsValue.str s, lim⟩ r =
      getMessages "POST" db ⟨JsValue.undefined, lim⟩ r := by
  have hpage : pageDocs db ⟨JsValue.str s, lim⟩ =
      pageDocs db ⟨JsValue.undefined, lim⟩ := by
    unfold pageDocs
    dsimp only
    by_cases hs : s = ""
    · subst hs
      rfl
    · have ht : jsTruthy (JsValue.str s) = true := by
        simp [jsTruthy, hs]
      have hany : (db.any fun d => d.id = jsToString (JsValue.str s)) = false := by
        rw [List.any_eq_false]
        intro d hd
        simpa [jsToString] using h d hd
      rw [ht, if_pos rfl, if_neg (by simp [hany])]
      rfl
  unfold getMessages
  dsimp only
  rw [hpage]

/-- C4 witness: on `pageDb`, the cursor `"nope"` (no such document) gives
exactly the first-page response. -/
theorem C4_invalid_cursor_first_page_witness :
    getMessages "POST" pageDb ⟨JsValue.str "nope", JsValue.num 5⟩
        (fun _ => 0) =
      getMessages "POST" pageDb ⟨JsValue.undefined, JsValue.num 5⟩
        (fun _ => 0) :=
  C4_invalid_cursor_first_page pageDb (JsValue.num 5) "nope" (fun _ => 0)
    (by decide)

/-! ### Claim C10 -/

/-- C10: for every request and every outcome of the in-page shuffle, the
returned `messages` array is a permutation of the reshaped rows of the
query page; `lastDocId` is the id of the last document of the unshuffled
page in `createdAt`-descending query order, and it is `null` exactly when
the page is empty. -/
theorem C10_shuffled_page_cursor (db : List Doc) (req : PageRequest)
    (r : Nat → Nat) (out : PageOk)
    (hout : getMessages "POST" db req r = Except.ok out) :
    List.Perm out.messages ((pageDocs db req).map reshapeRow) ∧
    out.lastDocId = ((pageDocs db req).getLast?).map Doc.id ∧
    (out.lastDocId = none ↔ pageDocs db req = []) := by
  rw [getMessages, if_neg (by decide)] at hout
  obtain rfl := Except.ok.inj hout
  dsimp only
  refine ⟨fisherYates_perm _ r, rfl, ?_⟩
  rw [Option.map_eq_none']
  exact List.getLast?_eq_none_iff

/-- C10 witness: the concrete response for `pageDb` is a permutation of
the page's reshaped rows. -/
theorem C10_shuffled_page_cursor_witness :
    List.Perm pageOut.messages
      ((pageDocs pageDb ⟨JsValue.undefined, JsValue.num 100⟩).map reshapeRow) :=
  (C10_shuffled_page_cursor pageDb ⟨JsValue.undefined, JsValue.num 100⟩
    (fun _ => 0) pageOut rfl).1

/-! ### Claim C7 -/

/-- A CSV row with an empty state and a non-empty country: the claimed
fallback would use the country, but `loadSeedMessages` never looks at it. -/
def rowParis : CsvRow :=
  ⟨"Big Hug", "hi", "Paris", "", "France", "2024-01-01"⟩

/-- C7 (counterexample): the thank-you-grams loader derives
`location = "Paris, "` for a row with empty state, while the claimed
city/state/country fallback would give `"Paris, France"`; so not every
seed variant uses the fallback order. -/
theorem C7_location_fallback_counterexample :
    getField ((loadSeedMessages [rowParis]).getD 0 []) "location" =
      JsValue.str "Paris, " ∧
    claimedLocationFallback rowParis.city rowParis.state rowParis.country =
      "Paris, France" ∧
    "Paris, " ≠ "Paris, France" :=
  ⟨rfl, rfl, by decide⟩

/-- The because-of-you loader's location, row by row, is exactly the
claimed fallback applied to the defaulted-and-trimmed fields. -/
theorem becauseOfYou_location (row : CsvRow) :
    getField ((loadBecauseOfYouSeedMessages [row]).getD 0 []) "location" =
      JsValue.str (claimedLocationFallback (jsOrStr row.city "")
        ((jsOrStr row.state "").trim) ((jsOrStr row.country "").trim)) := by
  unfold loadBecauseOfYouSeedMessages claimedLocationFallback
  dsimp only [List.map_cons, List.map_nil, List.getD, List.getElem?_cons_zero,
    Option.getD_some]
  by_cases hst : (jsOrStr row.state "").trim = ""
  · by_cases hco : (jsOrStr row.country "").trim = ""
    · by_cases hci : jsOrStr row.city "" = ""
      · simp [getField, hst, hco, hci, jsOrStr]
      · simp [getField, hst, hco, hci, jsOrStr]
    · simp [getField, hst, hco]
  · simp [getField, hst]

/-- C7 (amended): only the because-of-you seed variant derives `location`
with the claimed fallback order (on the defaulted and trimmed
city/state/country); the thank-you-grams variant always joins
`city ++ ", " ++ state` and the global variant always joins
`city ++ ", " ++ country`, with no fallback. -/
theorem C7_location_per_loader (rows : List CsvRow) :
    ((loadSeedMessages rows).map (fun o => getField o "location") =
      rows.map (fun row => JsValue.str (row.city ++ ", " ++ row.state))) ∧
    ((loadGlobalSeedMessages rows).map (fun o => getField o "location") =
      rows.map (fun row => JsValue.str (row.city ++ ", " ++ row.country))) ∧
    ((loadBecauseOfYouSeedMessages rows).map (fun o => getField o "location") =
      rows.map (fun row => JsValue.str (claimedLocationFallback
        (jsOrStr row.city "") ((jsOrStr row.state "").trim)
        ((jsOrStr row.country "").trim)))) := by
  refine ⟨?_, ?_, ?_⟩
  · unfold loadSeedMessages
    rw [List.map_map]
    exact List.map_congr_left (fun row _ => rfl)
  · unfold loadGlobalSeedMessages
    rw [List.map_map]
    exact List.map_congr_left (fun row _ => rfl)
  · unfold loadBecauseOfYouSeedMessages
    rw [List.map_map]
    refine List.map_congr_left (fun row _ => ?_)
    have h := becauseOfYou_location row
    unfold loadBecauseOfYouSeedMessages at h
    simpa using h

/-! ### Claim C8 -/

/-- A document carrying its own `title` and a timestamp `createdAt`. -/
def mergeDoc : Doc :=
  ⟨"doc1", [("createdAt", JsValue.timestamp 5), ("title", JsValue.str "T")]⟩

/-- C8: the two observed revisions of the row reshaping are not
equivalent: the current revision's normalized fields override the raw
data (`createdAt` comes back as an ISO string), while in the earlier
revision the raw data overrides the normalized fields (`createdAt` comes
back as the raw timestamp), so this document yields different rows. -/
theorem C8_reshape_revisions_differ :
    getField (reshapeRow mergeDoc) "createdAt" =
      JsValue.str (isoString 5) ∧
    getField (reshapeRowLegacy mergeDoc) "createdAt" =
      JsValue.timestamp 5 ∧
    getField (reshapeRow mergeDoc) "createdAt" ≠
      getField (reshapeRowLegacy mergeDoc) "createdAt" :=
  ⟨rfl, rfl, by decide⟩
